import Mathlib

/-
Verification of the pokt-calculator monitoring service core against its
specification.

The embedding covers:
- `pocketProvider.BlockTime` (cache-then-remote block time resolution) from
  the pocket provider source, with the `blockTimesRepo` collaborator
  (`Get`/`Set`) modelled as an association-list cache plus injectable
  error/remote behaviours (`ProviderEnv`);
- the summary sort and relays-by-chain assembly of
  `MonthlyRewardsEndpoint` from `monitoring/endpoints.go`;
- the chain loop of `pocketProvider.Node`;
- `pocketProvider.doRequest`, with the outcome of `client.Do` as input and
  a distinguished outcome for a nil-pointer dereference;
- the reward-timing statistics of the service layer (not present in the
  source tree), modelled from the spec.

Machine time stamps are abstracted as naturals (only equality and storage
matter to the resolver); errors are strings, wrapped exactly where the
source wraps them.
-/

namespace Pokt

abbrev Err := String

abbrev Height := Nat

abbrev Timestamp := Nat

/-- The block-time cache state: an association list from height to the
stored timestamp, standing for the key-value store behind the
`blockTimesRepo` interface. A `Set` prepends its entry; `List.lookup`
finds it. -/
abbrev Cache := List (Height × Timestamp)

/-- The injectable behaviour of the provider's collaborators for one run:
the combined result of `doRequest` + `json.Unmarshal` for each height
(`remote`), the error component returned by the repo's `Get` (`getErr`,
returned alongside the value and existence flag), and whether the repo's
`Set` fails (`setErr`). -/
structure ProviderEnv where
  remote : Height → Except Err Timestamp
  getErr : Height → Option Err
  setErr : Height → Option Err

/-- The repo's `Get(height) (t time.Time, exists bool, err error)`: the
value and existence flag come from the cache map, the error component from
the environment. -/
def blockTimesRepo.Get (env : ProviderEnv) (st : Cache) (height : Height) :
    Timestamp × Bool × Option Err :=
  match st.lookup height with
  | some t => (t, true, env.getErr height)
  | none => (0, false, env.getErr height)

/-- The repo's `Set(height, t) error`: on success the entry is stored, on
failure the state is untouched and the error returned. -/
def blockTimesRepo.Set (env : ProviderEnv) (st : Cache) (height : Height)
    (t : Timestamp) : Cache × Option Err :=
  match env.setErr height with
  | some e => (st, some e)
  | none => ((height, t) :: st, none)

/-- `pocketProvider.BlockTime` from the pocket provider source, returning
the result, the cache state after the call, and the number of remote
lookups performed. The source reads `(cached, exists, err)` from the repo
and tests only `exists` (the `err` component is never inspected); on a
miss it performs the remote lookup (`doRequest` + `Unmarshal`, combined in
`env.remote`), then calls `Set` and fails if `Set` fails, otherwise
returns the fetched timestamp. Errors are wrapped with the
`"pocketProvider.BlockTime: "` prefix as in the source's `fail`. -/
def BlockTime (env : ProviderEnv) (st : Cache) (height : Height) :
    Except Err Timestamp × Cache × Nat :=
  match blockTimesRepo.Get env st height with
  | (cached, true, _) => (Except.ok cached, st, 0)
  | (_, false, _) =>
    match env.remote height with
    | Except.error e => (Except.error ("pocketProvider.BlockTime: " ++ e), st, 1)
    | Except.ok t =>
      match blockTimesRepo.Set env st height t with
      | (st2, some e) => (Except.error ("pocketProvider.BlockTime: " ++ e), st2, 1)
      | (st2, none) => (Except.ok t, st2, 1)

/-- Whether an `Except` result is a success. -/
def exceptIsOk : Except Err Timestamp → Bool
  | Except.ok _ => true
  | Except.error _ => false

/-- Concrete environment: remote lookups always return timestamp 42, no
cache errors. -/
def envOK : ProviderEnv :=
  { remote := fun _ => Except.ok 42
    getErr := fun _ => none
    setErr := fun _ => none }

/-- Concrete environment: remote lookups fail with a timeout. -/
def envRemoteFail : ProviderEnv :=
  { remote := fun _ => Except.error "timeout"
    getErr := fun _ => none
    setErr := fun _ => none }

/-- Concrete environment: remote lookups return timestamp 100 but every
cache write fails. -/
def envSetFail : ProviderEnv :=
  { remote := fun _ => Except.ok 100
    getErr := fun _ => none
    setErr := fun _ => some "disk full" }

/-- The fields of `monthlyRewardsResponse` that the endpoint's
`sort.Slice` comparator reads (`Year`, `Month`), plus `NumRelays` as a
payload so distinct summaries with equal keys remain distinguishable. -/
structure monthlyRewardsResponse where
  Year : Nat
  Month : Nat
  NumRelays : Nat
deriving DecidableEq

/-- The comparator passed to `sort.Slice` in `MonthlyRewardsEndpoint`:
`less(i, j)` is `Month_i > Month_j` when the years agree and
`Year_i > Year_j` otherwise. -/
def summaryLess (a b : monthlyRewardsResponse) : Bool :=
  if a.Year = b.Year then decide (a.Month > b.Month) else decide (a.Year > b.Year)

/-- `a` may precede `b` in the sorted output: the comparator does not
strictly order `b` before `a`. -/
abbrev respLe (a b : monthlyRewardsResponse) : Prop := summaryLess b a = false

instance : IsTotal monthlyRewardsResponse respLe where
  total a b := by
    unfold respLe summaryLess
    by_cases h : a.Year = b.Year
    · simp [h, decide_eq_false_iff_not]
      omega
    · simp [h, Ne.symm h, decide_eq_false_iff_not]
      omega

instance : IsTrans monthlyRewardsResponse respLe where
  trans a b c hab hbc := by
    unfold respLe summaryLess at hab hbc ⊢
    by_cases h1 : b.Year = a.Year <;> by_cases h2 : c.Year = b.Year <;>
      by_cases h3 : c.Year = a.Year <;>
      simp_all [decide_eq_false_iff_not] <;> omega

/-- The `sort.Slice(resp, less)` call of `MonthlyRewardsEndpoint`: a
sorting algorithm applied with the source's comparator (Go's `sort.Slice`
guarantees a sorted permutation; insertion sort realises that contract). -/
def sortSummaries (l : List monthlyRewardsResponse) : List monthlyRewardsResponse :=
  List.insertionSort respLe l

/-- Descending (year, month) order, as the spec words it: later years
first, and within one year later months first. -/
def descByYearMonth (a b : monthlyRewardsResponse) : Prop :=
  b.Year < a.Year ∨ (a.Year = b.Year ∧ b.Month ≤ a.Month)

/-- Concrete summary keyed (2023, 1). -/
def sum2023_1 : monthlyRewardsResponse := ⟨2023, 1, 10⟩

/-- Concrete summary keyed (2022, 12). -/
def sum2022_12 : monthlyRewardsResponse := ⟨2022, 12, 20⟩

/-- Concrete summary keyed (2023, 3). -/
def sum2023_3 : monthlyRewardsResponse := ⟨2023, 3, 30⟩

/-- `pocket.Chain`: a chain identifier and its display name. -/
structure Chain where
  ID : String
  Name : String
deriving DecidableEq

/-- Modelled from the spec: `pocket.ChainFromID` and the static chain
table live in the `pocket` domain package, which is not part of the
source tree here (only its callers are). Per the spec, the chain table
maps a chain id to a display name; an unknown identifier yields a
"not found" error, and — following Go convention, confirmed by every
call site handling the error — the zero-value `Chain` alongside it. The
table is an explicit parameter. -/
def ChainFromID (table : List (String × String)) (id : String) :
    Chain × Option Err :=
  match table.lookup id with
  | some name => ({ ID := id, Name := name }, none)
  | none => ({ ID := "", Name := "" }, some ("chain not found: " ++ id))

/-- The fields of a monthly transaction that the endpoint's by-chain
accumulation loop reads. -/
structure Transaction where
  ChainID : String
  NumRelays : Nat
deriving DecidableEq

/-- One `relays_by_chain` entry of the monthly rewards response. -/
structure relaysByChain where
  Chain : String
  Name : String
  NumRelays : Nat
deriving DecidableEq

/-- One step of the endpoint's `byChain` map update: `if !isSet` insert 0,
then `byChain[tx.ChainID] += tx.NumRelays`. On an association list this
adds to the existing entry or appends a fresh one. -/
def addRelay : List (String × Nat) → String → Nat → List (String × Nat)
  | [], ch, n => [(ch, n)]
  | (k, v) :: rest, ch, n =>
    if k = ch then (k, v + n) :: rest else (k, v) :: addRelay rest ch n

/-- The endpoint's first loop over `month.Transactions`, building the
`byChain` relay totals (entries in first-occurrence order; the Go map's
iteration order is arbitrary and no claim depends on it). -/
def byChainOf (txs : List Transaction) : List (String × Nat) :=
  txs.foldl (fun acc tx => addRelay acc tx.ChainID tx.NumRelays) []

/-- The summed relay count of one chain over a bucket's transactions. -/
def chainRelaySum : List Transaction → String → Nat
  | [], _ => 0
  | tx :: rest, c => (if tx.ChainID = c then tx.NumRelays else 0) + chainRelaySum rest c

/-- The endpoint's per-chain entry assembly: `ChainFromID` is consulted
and on error the raw identifier is used as the display name. -/
def relaysByChainEntry (table : List (String × String)) (ch : String) (num : Nat) :
    relaysByChain :=
  match ChainFromID table ch with
  | (_, some _) => { Chain := ch, Name := ch, NumRelays := num }
  | (chain, none) => { Chain := ch, Name := chain.Name, NumRelays := num }

/-- The endpoint's second loop: one `relays_by_chain` entry per `byChain`
key. -/
def relaysByChainOf (table : List (String × String)) (txs : List Transaction) :
    List relaysByChain :=
  (byChainOf txs).map fun p => relaysByChainEntry table p.1 p.2

/-- The chain loop of `pocketProvider.Node`: for each chain id of the
node response, `ChainFromID` is called; its error is passed to `fail`
whose result is discarded (the source writes `fail(err)` without
`return`), so the first component is stored in `chains[i]` in every
case. -/
def nodeChains (table : List (String × String)) (ids : List String) : List Chain :=
  ids.map fun chainID => (ChainFromID table chainID).1

/-- Concrete chain table without an entry for "0099". -/
def tableW : List (String × String) := [("0001", "mainnet")]

/-- Concrete bucket transactions: chain "0099" appears twice. -/
def txsW : List Transaction := [⟨"0099", 5⟩, ⟨"0001", 2⟩, ⟨"0099", 7⟩]

/-- Consecutive gaps of a list of timestamps (seconds). -/
def gapsOf : List Int → List Int
  | a :: b :: rest => (b - a) :: gapsOf (b :: rest)
  | _ => []

/-- Modelled from the spec: the service-layer `RewardsByMonth` computation
that fills `AvgSecsBetweenRewards` / `TotalSecsBetweenRewards` is not in
the source tree (the endpoint only copies its fields). Per the spec the
total is the sum of consecutive gaps over the time-sorted reward-event
transactions of the bucket. -/
def totalSecsBetweenRewards (times : List Int) : Int :=
  (gapsOf times).sum

/-- Modelled from the spec: the average is the total divided by
(count − 1), defined as 0 when fewer than 2 reward events exist in the
bucket. -/
def avgSecsBetweenRewards (times : List Int) : ℚ :=
  if times.length < 2 then 0
  else (totalSecsBetweenRewards times : ℚ) / ((times.length : ℚ) - 1)

/-- The part of an HTTP response that `doRequest` consumes after
`client.Do`: the result of reading its body. -/
structure httpResponse where
  readAll : Except Err String

/-- Outcome of a `doRequest` call: a body, a returned error, or a runtime
panic (nil-pointer dereference). -/
inductive doRequestOutcome where
  | ok (body : String)
  | err (e : Err)
  | panicked
deriving DecidableEq

/-- Whether an outcome is the panic outcome. -/
def isPanic : doRequestOutcome → Bool
  | doRequestOutcome.panicked => true
  | _ => false

/-- `pocketProvider.doRequest`: `json.Marshal` and `http.NewRequest`
error paths return first (their outcomes are inputs `marshalErr`,
`newReqErr`); then `resp, err := p.client.Do(clientReq)` yields the pair
(`resp` possibly nil, `doErr`). The source places
`defer resp.Body.Close()` before the error check, so a nil `resp`
dereferences nil and panics; with a non-nil `resp` the error is returned,
otherwise the body is read. -/
def doRequest (marshalErr newReqErr : Option Err) (resp : Option httpResponse)
    (doErr : Option Err) : doRequestOutcome :=
  match marshalErr with
  | some e => doRequestOutcome.err ("doRequest: " ++ e)
  | none =>
    match newReqErr with
    | some e => doRequestOutcome.err ("doRequest: " ++ e)
    | none =>
      match resp with
      | none => doRequestOutcome.panicked
      | some r =>
        match doErr with
        | some e => doRequestOutcome.err ("doRequest: " ++ e)
        | none =>
          match r.readAll with
          | Except.error e => doRequestOutcome.err ("doRequest: " ++ e)
          | Except.ok body => doRequestOutcome.ok body

/-- C1: for every height, `BlockTime` first consults the cache: a cache
hit is returned immediately with no remote lookup, and on a miss the
fetched timestamp is stored keyed by the height and returned (the stated
miss behaviour, with the remote lookup and the cache write succeeding). -/
theorem blockTime_cache_first (env : ProviderEnv) (st : Cache) (h : Height) :
    (∀ t, st.lookup h = some t → BlockTime env st h = (Except.ok t, st, 0)) ∧
    (st.lookup h = none → ∀ t, env.remote h = Except.ok t → env.setErr h = none →
      BlockTime env st h = (Except.ok t, (h, t) :: st, 1)) := by
  constructor
  · intro t hl
    simp [BlockTime, blockTimesRepo.Get, hl]
  · intro hl t hr hs
    simp [BlockTime, blockTimesRepo.Get, blockTimesRepo.Set, hl, hr, hs]

/-- Witness for C1 at concrete inputs: a cache hit at height 3 and a
cache miss at height 5. -/
theorem blockTime_cache_first_witness :
    BlockTime envOK [(3, 7)] 3 = (Except.ok 7, [(3, 7)], 0) ∧
    BlockTime envOK [(3, 7)] 5 = (Except.ok 42, (5, 42) :: [(3, 7)], 1) :=
  ⟨(blockTime_cache_first envOK [(3, 7)] 3).1 7 rfl,
   (blockTime_cache_first envOK [(3, 7)] 5).2 rfl 42 rfl rfl⟩

/-- C2 counterexample: height 5, empty cache, the remote lookup succeeds
with timestamp 100 and the cache write fails; `BlockTime` does not
succeed, refuting that a cache-write failure is non-fatal. -/
theorem blockTime_set_failure_counterexample :
    envSetFail.remote 5 = Except.ok 100 ∧
    envSetFail.setErr 5 = some "disk full" ∧
    List.lookup 5 ([] : Cache) = none ∧
    exceptIsOk (BlockTime envSetFail [] 5).1 = false :=
  ⟨rfl, rfl, rfl, rfl⟩

/-- C2 amended: on a cache miss with a successful remote lookup, a
failure of the cache write is fatal: `BlockTime` returns the wrapped
`Set` error instead of the freshly fetched timestamp. -/
theorem blockTime_set_failure_fatal (env : ProviderEnv) (st : Cache) (h : Height)
    (t : Timestamp) (e : Err) (hl : st.lookup h = none)
    (hr : env.remote h = Except.ok t) (hs : env.setErr h = some e) :
    BlockTime env st h = (Except.error ("pocketProvider.BlockTime: " ++ e), st, 1) := by
  simp [BlockTime, blockTimesRepo.Get, blockTimesRepo.Set, hl, hr, hs]

/-- Witness for the amended C2 at a concrete input. -/
theorem blockTime_set_failure_fatal_witness :
    BlockTime envSetFail [] 5 =
      (Except.error ("pocketProvider.BlockTime: " ++ "disk full"), [], 1) :=
  blockTime_set_failure_fatal envSetFail [] 5 100 "disk full" rfl rfl rfl

/-- C4: if a first call to `BlockTime` succeeds with timestamp `t`, a
second call at the same height (on the resulting cache) also returns `t`,
and the two calls perform at most one remote lookup in total. -/
theorem blockTime_idempotent (env : ProviderEnv) (st : Cache) (h : Height)
    (t : Timestamp) (h1 : (BlockTime env st h).1 = Except.ok t) :
    (BlockTime env (BlockTime env st h).2.1 h).1 = Except.ok t ∧
    (BlockTime env st h).2.2 + (BlockTime env (BlockTime env st h).2.1 h).2.2 ≤ 1 := by
  cases hl : st.lookup h with
  | some c =>
    have hc : c = t := by
      simpa [BlockTime, blockTimesRepo.Get, hl] using h1
    subst hc
    simp [BlockTime, blockTimesRepo.Get, hl]
  | none =>
    cases hr : env.remote h with
    | error e => simp [BlockTime, blockTimesRepo.Get, hl, hr] at h1
    | ok v =>
      cases hs : env.setErr h with
      | some e => simp [BlockTime, blockTimesRepo.Get, blockTimesRepo.Set, hl, hr, hs] at h1
      | none =>
        have hv : v = t := by
          simpa [BlockTime, blockTimesRepo.Get, blockTimesRepo.Set, hl, hr, hs] using h1
        subst hv
        simp [BlockTime, blockTimesRepo.Get, blockTimesRepo.Set, hl, hr, hs, List.lookup]

/-- Witness for C4: height 5, empty cache, remote returning 42. -/
theorem blockTime_idempotent_witness :
    (BlockTime envOK (BlockTime envOK [] 5).2.1 5).1 = Except.ok 42 ∧
    (BlockTime envOK [] 5).2.2 + (BlockTime envOK (BlockTime envOK [] 5).2.1 5).2.2 ≤ 1 :=
  blockTime_idempotent envOK [] 5 42 rfl

/-- C5: on a cache miss where the remote lookup fails, `BlockTime` fails
with the wrapped error and the cache is left unchanged — nothing is
written on a failed resolution. -/
theorem blockTime_remote_failure (env : ProviderEnv) (st : Cache) (h : Height)
    (e : Err) (hl : st.lookup h = none) (hr : env.remote h = Except.error e) :
    BlockTime env st h = (Except.error ("pocketProvider.BlockTime: " ++ e), st, 1) := by
  simp [BlockTime, blockTimesRepo.Get, hl, hr]

/-- Witness for C5: height 5, empty cache, remote failing with a
timeout. -/
theorem blockTime_remote_failure_witness :
    BlockTime envRemoteFail [] 5 =
      (Except.error ("pocketProvider.BlockTime: " ++ "timeout"), [], 1) :=
  blockTime_remote_failure envRemoteFail [] 5 "timeout" rfl rfl

/-- C10: the error component returned by the repo's `Get` is discarded:
`BlockTime` behaves identically under any `getErr` behaviour, and a cache
hit still returns the cached timestamp as a success. -/
theorem blockTime_get_error_discarded (env : ProviderEnv) (g : Height → Option Err)
    (st : Cache) (h : Height) :
    BlockTime { env with getErr := g } st h = BlockTime env st h ∧
    (∀ t, st.lookup h = some t → (BlockTime env st h).1 = Except.ok t) := by
  obtain ⟨rem, ge, se⟩ := env
  constructor
  · cases hl : st.lookup h with
    | some c => simp [BlockTime, blockTimesRepo.Get, hl]
    | none => simp [BlockTime, blockTimesRepo.Get, blockTimesRepo.Set, hl]
  · intro t hl
    simp [BlockTime, blockTimesRepo.Get, hl]

/-- Witness for C10: a failing `Get` error channel at a concrete hit. -/
theorem blockTime_get_error_discarded_witness :
    BlockTime { envOK with getErr := fun _ => some "cache read failed" } [(3, 7)] 3 =
      BlockTime envOK [(3, 7)] 3 ∧
    (BlockTime envOK [(3, 7)] 3).1 = Except.ok 7 :=
  ⟨(blockTime_get_error_discarded envOK (fun _ => some "cache read failed") [(3, 7)] 3).1,
   (blockTime_get_error_discarded envOK (fun _ => some "cache read failed") [(3, 7)] 3).2 7 rfl⟩

/-- The sorted-output relation of the comparator coincides with
descending (year, month) order. -/
theorem respLe_iff_desc (a b : monthlyRewardsResponse) :
    respLe a b ↔ descByYearMonth a b := by
  unfold respLe summaryLess descByYearMonth
  by_cases h : b.Year = a.Year
  · simp [h, decide_eq_false_iff_not]
  · simp [h, decide_eq_false_iff_not]
    omega

/-- C3: the sorted summaries are a permutation of the produced summaries
and are pairwise in descending (year, month) order; on the concrete
buckets (2023, 1), (2022, 12), (2023, 3) every production order yields
[(2023, 3), (2023, 1), (2022, 12)]. -/
theorem monthlyRewards_sorted_desc :
    (∀ l, (sortSummaries l).Perm l) ∧
    (∀ l, (sortSummaries l).Pairwise descByYearMonth) ∧
    sortSummaries [sum2023_1, sum2022_12, sum2023_3] = [sum2023_3, sum2023_1, sum2022_12] ∧
    sortSummaries [sum2023_1, sum2023_3, sum2022_12] = [sum2023_3, sum2023_1, sum2022_12] ∧
    sortSummaries [sum2022_12, sum2023_1, sum2023_3] = [sum2023_3, sum2023_1, sum2022_12] ∧
    sortSummaries [sum2022_12, sum2023_3, sum2023_1] = [sum2023_3, sum2023_1, sum2022_12] ∧
    sortSummaries [sum2023_3, sum2023_1, sum2022_12] = [sum2023_3, sum2023_1, sum2022_12] ∧
    sortSummaries [sum2023_3, sum2022_12, sum2023_1] = [sum2023_3, sum2023_1, sum2022_12] := by
  refine ⟨fun l => List.perm_insertionSort respLe l,
    fun l => List.Pairwise.imp (fun hab => (respLe_iff_desc _ _).mp hab)
      (List.sorted_insertionSort respLe l),
    ?_, ?_, ?_, ?_, ?_, ?_⟩ <;> decide

/-- `List.lookup` on a cons cell, phrased with a propositional test. -/
theorem lookup_cons (c k : String) (v : Nat) (es : List (String × Nat)) :
    List.lookup c ((k, v) :: es) = if c = k then some v else List.lookup c es := by
  by_cases h : c = k
  · subst h
    simp [List.lookup]
  · simp [List.lookup, beq_eq_false_iff_ne.mpr h, h]

/-- `addRelay` adds to the entry of its key and leaves the rest alone. -/
theorem lookup_addRelay (acc : List (String × Nat)) (ch : String) (n : Nat) (c : String) :
    List.lookup c (addRelay acc ch n) =
      if c = ch then some ((List.lookup c acc).getD 0 + n) else List.lookup c acc := by
  induction acc with
  | nil =>
    by_cases h : c = ch
    · simp [addRelay, lookup_cons, h]
    · simp [addRelay, lookup_cons, h]
  | cons p rest ih =>
    obtain ⟨k, v⟩ := p
    by_cases hk : k = ch
    · subst hk
      by_cases hc : c = k
      · subst hc
        simp [addRelay, lookup_cons]
      · simp [addRelay, lookup_cons, hc]
    · by_cases hc : c = k
      · subst hc
        simp [addRelay, lookup_cons, hk]
      · simp [addRelay, lookup_cons, hk, hc, ih]

/-- A chain absent from a bucket has relay sum 0. -/
theorem chainRelaySum_eq_zero (txs : List Transaction) (c : String)
    (h : c ∉ txs.map Transaction.ChainID) : chainRelaySum txs c = 0 := by
  induction txs with
  | nil => rfl
  | cons tx rest ih =>
    simp only [List.map_cons, List.mem_cons, not_or] at h
    have hne : ¬ tx.ChainID = c := fun hh => h.1 hh.symm
    simp [chainRelaySum, hne, ih h.2]

/-- The `byChain` fold computes, for every chain, the summed relay count
of the processed transactions on top of the accumulator. -/
theorem lookup_byChainAux (txs : List Transaction) (acc : List (String × Nat)) (c : String) :
    List.lookup c (txs.foldl (fun a tx => addRelay a tx.ChainID tx.NumRelays) acc) =
      if c ∈ txs.map Transaction.ChainID
      then some ((List.lookup c acc).getD 0 + chainRelaySum txs c)
      else List.lookup c acc := by
  induction txs generalizing acc with
  | nil => simp
  | cons tx rest ih =>
    simp only [List.foldl_cons, List.map_cons, List.mem_cons]
    rw [ih, lookup_addRelay]
    by_cases hc : c = tx.ChainID
    · have hsum : chainRelaySum (tx :: rest) c = tx.NumRelays + chainRelaySum rest c := by
        simp [chainRelaySum, hc.symm]
      simp only [if_pos hc,
        if_pos (Or.inl hc : c = tx.ChainID ∨ c ∈ List.map Transaction.ChainID rest), hsum]
      by_cases hm : c ∈ rest.map Transaction.ChainID
      · simp only [if_pos hm, Option.getD_some]
        congr 1
        omega
      · simp only [if_neg hm, chainRelaySum_eq_zero rest c hm, Option.getD_some, Nat.add_zero]
    · have h2 : ¬ tx.ChainID = c := fun hh => hc hh.symm
      have hsum : chainRelaySum (tx :: rest) c = chainRelaySum rest c := by
        simp [chainRelaySum, h2]
      simp only [if_neg hc, hsum, or_iff_right hc]

/-- A successful lookup exhibits a member of the association list. -/
theorem mem_of_lookup (l : List (String × Nat)) (c : String) (v : Nat)
    (h : List.lookup c l = some v) : (c, v) ∈ l := by
  induction l with
  | nil => simp [List.lookup] at h
  | cons p rest ih =>
    obtain ⟨k, w⟩ := p
    rw [lookup_cons] at h
    by_cases hk : c = k
    · rw [if_pos hk] at h
      injection h with h
      simp [hk, h]
    · rw [if_neg hk] at h
      exact List.mem_cons_of_mem _ (ih h)

/-- C6: a chain identifier "0099" absent from the chain table but present
in the bucket yields a `relays_by_chain` entry whose chain and name both
equal "0099" and whose relay count is the bucket's summed relay count for
that chain. -/
theorem monthlyRewards_unknown_chain (table : List (String × String))
    (txs : List Transaction) (ht : List.lookup "0099" table = none)
    (hm : "0099" ∈ txs.map Transaction.ChainID) :
    (⟨"0099", "0099", chainRelaySum txs "0099"⟩ : relaysByChain) ∈
      relaysByChainOf table txs := by
  have hl : List.lookup "0099" (byChainOf txs) = some (chainRelaySum txs "0099") := by
    unfold byChainOf
    rw [lookup_byChainAux, if_pos hm]
    simp [List.lookup]
  have hmem := mem_of_lookup _ _ _ hl
  have hentry : relaysByChainEntry table "0099" (chainRelaySum txs "0099") =
      (⟨"0099", "0099", chainRelaySum txs "0099"⟩ : relaysByChain) := by
    unfold relaysByChainEntry ChainFromID
    rw [ht]
  unfold relaysByChainOf
  exact hentry ▸ List.mem_map_of_mem (fun p => relaysByChainEntry table p.1 p.2) hmem

/-- Witness for C6: table without "0099", bucket with relay counts 5 and
7 on chain "0099". -/
theorem monthlyRewards_unknown_chain_witness :
    (⟨"0099", "0099", chainRelaySum txsW "0099"⟩ : relaysByChain) ∈
      relaysByChainOf tableW txsW :=
  monthlyRewards_unknown_chain tableW txsW (by decide) (by decide)

/-- C7: evaluation of the `Node` chain loop at a chain id "0099" absent
from the table: the discarded `fail(err)` leaves the zero-value chain in
the result, so the entry is not the raw-id fallback the spec intends. -/
theorem node_unknown_chain_zero_value :
    nodeChains [] ["0099"] = [{ ID := "", Name := "" }] ∧
    decide (({ ID := "0099", Name := "0099" } : Chain) ∈ nodeChains [] ["0099"]) = false := by
  decide

/-- C8: a bucket with fewer than two reward-event transactions has both
timing statistics equal to 0 — no error and no division by zero. -/
theorem fewRewards_zero_stats (times : List Int) (h : times.length < 2) :
    avgSecsBetweenRewards times = 0 ∧ totalSecsBetweenRewards times = 0 := by
  constructor
  · unfold avgSecsBetweenRewards
    rw [if_pos h]
  · cases times with
    | nil => rfl
    | cons a tl =>
      cases tl with
      | nil => rfl
      | cons b tl2 =>
        simp only [List.length_cons] at h
        omega

/-- Witness for C8: a bucket with exactly one reward-event transaction. -/
theorem fewRewards_zero_stats_witness :
    avgSecsBetweenRewards [5] = 0 ∧ totalSecsBetweenRewards [5] = 0 :=
  fewRewards_zero_stats [5] (by decide)

/-- C9: when `client.Do` yields a nil response with a transport error,
`doRequest` panics (the deferred `resp.Body.Close()` dereferences nil)
instead of returning the error; with a non-nil response it never panics
and returns the wrapped error when one is present. -/
theorem doRequest_nil_resp_panics :
    (∀ e, doRequest none none none (some e) = doRequestOutcome.panicked) ∧
    (∀ r de, isPanic (doRequest none none (some r) de) = false) ∧
    (∀ r e, doRequest none none (some r) (some e) =
      doRequestOutcome.err ("doRequest: " ++ e)) := by
  refine ⟨fun e => rfl, fun r de => ?_, fun r e => rfl⟩
  cases de with
  | some e => rfl
  | none =>
    cases hr : r.readAll with
    | error e => simp [doRequest, isPanic, hr]
    | ok body => simp [doRequest, isPanic, hr]

end Pokt
